import Mathlib

/-!
# Book store REST server

A shallow embedding of `main.go`: the in-memory `BookStore` with its linear-scan
operations, and the HTTP handlers `handlerBook` / `handlerBooks` that sit on top
of it.

Conventions of the embedding.

* Go `string` is `String`; `fmt.Sprintf` with a single `%s` is string append.
* Go `error` is `Option String` (`nil` is `none`, otherwise the text of `Error()`).
* The package-level `bookStore` is threaded explicitly: every operation takes the
  store and returns the store it leaves behind.
* `json.Marshal` and `json.Decoder.Decode` belong to the standard library.  A
  request carries the outcome of decoding its body, and a response body is the
  sequence of envelopes handed to `w.Write` after marshalling.
-/

namespace RestServer

/-! ## Data model -/

/-- The `Book` record. -/
structure Book where
  Id : String
  Name : String
  Author : String
deriving DecidableEq, Repr

/-- The `BookStore` record: an ordered slice of books. -/
structure BookStore where
  books : List Book
deriving DecidableEq, Repr

/-- The dynamic value stored in the `interface{}` field `Response.Message`. -/
inductive Payload where
  | null : Payload
  | text : String → Payload
  | book : Book → Payload
  | list : List Book → Payload
deriving DecidableEq, Repr

/-- The `Response` envelope. -/
structure Response where
  Message : Payload
  Error : String
deriving DecidableEq, Repr

/-- The zero value `var response Response`. -/
def Response.zero : Response := { Message := Payload.null, Error := "" }

/-- The initial value of the package-level variable `bookStore`. -/
def bookStore : BookStore := { books := [] }

/-! ## Store operations -/

/-- The scan `for i, bk := range books { if bk.Id == id { ... i ... } }`:
the index at which the loop body fires, if it does. -/
def indexOfId (id : String) : List Book → Option Nat
  | [] => none
  | bk :: rest => if bk.Id = id then some 0 else (indexOfId id rest).map (· + 1)

/-- The scan of `FindBookById`: the first book whose id matches. -/
def findLoop (id : String) : List Book → Option Book
  | [] => none
  | book :: rest => if book.Id = id then some book else findLoop id rest

namespace BookStore

/-- The ids held by the store, in order. -/
def ids (s : BookStore) : List String := s.books.map Book.Id

/-- The store invariant: ids are pairwise distinct. -/
def uniqueIds (s : BookStore) : Prop := s.ids.Nodup

instance (s : BookStore) : Decidable s.uniqueIds := by
  unfold uniqueIds; infer_instance

/-- Embeds `func (s BookStore) FindBookById(id string) *Book`. -/
def FindBookById (s : BookStore) (id : String) : Option Book := findLoop id s.books

/-- Embeds `func (s BookStore) GetBooks() []Book`. -/
def GetBooks (s : BookStore) : List Book := s.books

/-- Embeds `func (s BookStore) GetBook(id string) *Book`. -/
def GetBook (s : BookStore) (id : String) : Option Book := findLoop id s.books

/-- Embeds `func (s *BookStore) AddBook(book Book) error`. -/
def AddBook (s : BookStore) (book : Book) : BookStore × Option String :=
  match indexOfId book.Id s.books with
  | some _ => (s, some ("Book with Id:" ++ book.Id ++ " is isset!"))
  | none => ({ books := s.books ++ [book] }, none)

/-- Embeds `func (s *BookStore) UpdateBook(book Book) error`. -/
def UpdateBook (s : BookStore) (book : Book) : BookStore × Option String :=
  match indexOfId book.Id s.books with
  | some i => ({ books := s.books.set i book }, none)
  | none => (s, some ("Book with Id:" ++ book.Id ++ " not found!"))

/-- Embeds `func (s *BookStore) DeleteBook(id string) error`; the slice expression is
`append(s.books[:i], s.books[i+1:]...)`. -/
def DeleteBook (s : BookStore) (id : String) : BookStore × Option String :=
  match indexOfId id s.books with
  | some i => ({ books := s.books.take i ++ s.books.drop (i + 1) }, none)
  | none => (s, some ("Book with Id:" ++ id ++ " not found!"))

end BookStore

/-- One mutating call on the store. -/
inductive StoreOp where
  | add : Book → StoreOp
  | update : Book → StoreOp
  | delete : String → StoreOp
deriving DecidableEq, Repr

/-- The store left behind by one call; the returned error is dropped. -/
def StoreOp.apply (s : BookStore) : StoreOp → BookStore
  | StoreOp.add b => (s.AddBook b).1
  | StoreOp.update b => (s.UpdateBook b).1
  | StoreOp.delete x => (s.DeleteBook x).1

/-- The store left behind by a finite sequence of calls. -/
def runOps (s : BookStore) (ops : List StoreOp) : BookStore :=
  ops.foldl StoreOp.apply s

/-! ## HTTP layer -/

/-- The function `strings.Replace(s, old, new, 1)` on character lists: the
leftmost occurrence of `old` is replaced, an empty `old` matches at the start. -/
def replaceOnce (old new : List Char) : List Char → List Char
  | [] => if old = [] then new else []
  | c :: cs =>
    if old.isPrefixOf (c :: cs) then new ++ (c :: cs).drop old.length
    else c :: replaceOnce old new cs

/-- The call `strings.Replace(s, old, new, 1)`. -/
def stringsReplace1 (s old new : String) : String :=
  String.mk (replaceOnce old.data new.data s.data)

/-- What a handler reads from `*http.Request`: the method, `r.URL.Path`, and the
outcome of `json.NewDecoder(r.Body).Decode(&book)` (the error text or the book). -/
structure Request where
  Method : String
  Path : String
  Decode : Except String Book

/-- The observable state of an `http.ResponseWriter`: the header map, the status
code once committed, and the documents written so far. -/
structure ResponseWriter where
  header : List (String × String)
  status : Option Nat
  body : List Response
deriving DecidableEq, Repr

namespace ResponseWriter

/-- A writer nothing has been sent on. -/
def fresh : ResponseWriter := { header := [], status := none, body := [] }

/-- The call `w.Header().Set(k, v)`. -/
def SetHeader (w : ResponseWriter) (k v : String) : ResponseWriter :=
  { w with header := (k, v) :: w.header.filter (fun kv => kv.1 ≠ k) }

/-- The call `w.WriteHeader(code)`: only the first call commits a status, later
calls are superfluous and ignored by `net/http`. -/
def WriteHeader (w : ResponseWriter) (code : Nat) : ResponseWriter :=
  match w.status with
  | none => { w with status := some code }
  | some _ => w

/-- The call `w.Write(json.Marshal(response))`: commits status 200 if no status
was committed yet, then appends the document to the body. -/
def Write (w : ResponseWriter) (r : Response) : ResponseWriter :=
  let w1 := w.WriteHeader 200
  { w1 with body := w1.body ++ [r] }

/-- The status code the client receives. -/
def statusCode (w : ResponseWriter) : Nat := w.status.getD 200

end ResponseWriter

def StatusOK : Nat := 200
def StatusBadRequest : Nat := 400
def StatusNotFound : Nat := 404
def StatusConflict : Nat := 409

def MethodGet : String := "GET"
def MethodPost : String := "POST"
def MethodPut : String := "PUT"
def MethodDelete : String := "DELETE"

/-- Embeds `func handleGetBook(w http.ResponseWriter, r *http.Request)`. -/
def handleGetBook (s : BookStore) (w : ResponseWriter) (r : Request) :
    BookStore × ResponseWriter :=
  let bookId := stringsReplace1 r.Path "/book/" ""
  match s.FindBookById bookId with
  | none =>
    let response : Response :=
      { Response.zero with Error := "Book with Id:" ++ bookId ++ " not found!" }
    (s, (w.WriteHeader StatusNotFound).Write response)
  | some book =>
    let response : Response := { Response.zero with Message := Payload.book book }
    (s, (w.WriteHeader StatusOK).Write response)

/-- Embeds `func handleAddBook(w http.ResponseWriter, r *http.Request)`. -/
def handleAddBook (s : BookStore) (w : ResponseWriter) (r : Request) :
    BookStore × ResponseWriter :=
  match r.Decode with
  | Except.error err =>
    (s, (w.WriteHeader StatusBadRequest).Write { Response.zero with Error := err })
  | Except.ok book =>
    match s.AddBook book with
    | (s1, some err) =>
      (s1, (w.WriteHeader StatusConflict).Write { Response.zero with Error := err })
    | (s1, none) =>
      (s1, (w.WriteHeader StatusOK).Write
        { Message := Payload.text ("Book with id:" ++ book.Id ++ " updated is SUCCESS!"),
          Error := "" })

/-- Embeds `func handleUpdateBook(w http.ResponseWriter, r *http.Request)`. -/
def handleUpdateBook (s : BookStore) (w : ResponseWriter) (r : Request) :
    BookStore × ResponseWriter :=
  match r.Decode with
  | Except.error err =>
    (s, (w.WriteHeader StatusBadRequest).Write { Response.zero with Error := err })
  | Except.ok book =>
    match s.UpdateBook book with
    | (s1, some err) =>
      (s1, (w.WriteHeader StatusBadRequest).Write { Response.zero with Error := err })
    | (s1, none) =>
      (s1, (w.WriteHeader StatusOK).Write
        { Message := Payload.text ("Book with id:" ++ book.Id ++ " updated is SUCCESS!"),
          Error := "" })

/-- Embeds `func handleDeleteBook(w http.ResponseWriter, r *http.Request)`. -/
def handleDeleteBook (s : BookStore) (w : ResponseWriter) (r : Request) :
    BookStore × ResponseWriter :=
  match r.Decode with
  | Except.error err =>
    (s, (w.WriteHeader StatusBadRequest).Write { Response.zero with Error := err })
  | Except.ok book =>
    match s.DeleteBook book.Id with
    | (s1, some err) =>
      (s1, (w.WriteHeader StatusBadRequest).Write { Response.zero with Error := err })
    | (s1, none) =>
      (s1, (w.WriteHeader StatusOK).Write
        { Message := Payload.text ("Book with id:" ++ book.Id ++ " deleted is SUCCESS!"),
          Error := "" })

/-- Embeds `func handlerBook(w http.ResponseWriter, r *http.Request)`. -/
def handlerBook (s : BookStore) (w : ResponseWriter) (r : Request) :
    BookStore × ResponseWriter :=
  let w1 := w.SetHeader "Content-Type" "application/json"
  if r.Method = MethodGet then handleGetBook s w1 r
  else if r.Method = MethodPost then handleAddBook s w1 r
  else if r.Method = MethodPut then handleUpdateBook s w1 r
  else if r.Method = MethodDelete then handleDeleteBook s w1 r
  else (s, w1)

/-- Embeds `func handlerBooks(w http.ResponseWriter, r *http.Request)`. -/
def handlerBooks (s : BookStore) (w : ResponseWriter) (r : Request) :
    BookStore × ResponseWriter :=
  let w1 := (w.SetHeader "Content-Type" "application/json").WriteHeader StatusOK
  let (s2, w2) := if r.Method = MethodGet then handleGetBook s w1 r else (s, w1)
  let response : Response := { Response.zero with Message := Payload.list s2.GetBooks }
  (s2, w2.Write response)

/-- A handler in store-passing style. -/
abbrev Handler := BookStore → ResponseWriter → Request → BookStore × ResponseWriter

/-- What the client observes of one exchange: status code and body. -/
structure Reply where
  code : Nat
  body : List Response
deriving DecidableEq, Repr

/-- Serve one request on a fresh writer. -/
def serve (h : Handler) (s : BookStore) (r : Request) : BookStore × Reply :=
  let out := h s ResponseWriter.fresh r
  (out.1, { code := out.2.statusCode, body := out.2.body })

/-- Serve a sequence of requests one after the other against the same store,
collecting the replies in order. -/
def serveAll (h : Handler) : BookStore → List Request → BookStore × List Reply
  | s, [] => (s, [])
  | s, r :: rs =>
    let out := serve h s r
    let tail := serveAll h out.1 rs
    (tail.1, out.2 :: tail.2)


/-! ## Sample data -/

def dune : Book := { Id := "1", Name := "Dune", Author := "Herbert" }

def duneRevised : Book := { Id := "1", Name := "Dune", Author := "F. Herbert" }

def emma : Book := { Id := "2", Name := "Emma", Author := "Austen" }

def ulysses : Book := { Id := "3", Name := "Ulysses", Author := "Joyce" }

/-- A store holding two books with distinct ids. -/
def shelf : BookStore := { books := [dune, emma] }

/-! ## Lemmas on the scans -/

theorem indexOfId_eq_none_iff (id : String) (l : List Book) :
    indexOfId id l = none ↔ id ∉ l.map Book.Id := by
  induction l with
  | nil => simp [indexOfId]
  | cons bk rest ih =>
    by_cases h : bk.Id = id
    · simp [indexOfId, h]
    · have h2 : ¬ id = bk.Id := fun e => h e.symm
      simp [indexOfId, h, h2, ih]

theorem indexOfId_isSome_iff (id : String) (l : List Book) :
    (indexOfId id l).isSome ↔ id ∈ l.map Book.Id := by
  rw [← not_iff_not, ← indexOfId_eq_none_iff]
  cases indexOfId id l <;> simp

theorem findLoop_eq_none_iff (id : String) (l : List Book) :
    findLoop id l = none ↔ id ∉ l.map Book.Id := by
  induction l with
  | nil => simp [findLoop]
  | cons bk rest ih =>
    by_cases h : bk.Id = id
    · simp [findLoop, h]
    · have h2 : ¬ id = bk.Id := fun e => h e.symm
      simp [findLoop, h, h2, ih]

/-- The index found by the scan is in range, holds the id, and is the first such. -/
theorem indexOfId_some {id : String} {l : List Book} {i : Nat} (h : indexOfId id l = some i) :
    i < l.length ∧ l[i]?.map Book.Id = some id ∧
      (∀ j, j < i → l[j]?.map Book.Id ≠ some id) ∧ findLoop id l = l[i]? := by
  induction l generalizing i with
  | nil => simp [indexOfId] at h
  | cons bk rest ih =>
    by_cases hb : bk.Id = id
    · simp [indexOfId, hb] at h
      subst h
      simp [hb, findLoop]
    · simp only [indexOfId, hb, if_false, Option.map_eq_some'] at h
      obtain ⟨k, hk, rfl⟩ := h
      obtain ⟨h1, h2, h3, h4⟩ := ih hk
      refine ⟨by simpa using h1, by simpa using h2, ?_, by simpa [findLoop, hb] using h4⟩
      intro j hj
      cases j with
      | zero => simpa using hb
      | succ j => simpa using h3 j (by omega)

theorem findLoop_append_of_not_mem {id : String} {l : List Book} (h : id ∉ l.map Book.Id)
    (m : List Book) : findLoop id (l ++ m) = findLoop id m := by
  induction l with
  | nil => rfl
  | cons bk rest ih =>
    simp only [List.map_cons, List.mem_cons, not_or] at h
    have hb : ¬ bk.Id = id := fun e => h.1 e.symm
    simp [findLoop, hb, ih h.2]

theorem findLoop_append_of_ne {y : String} (l : List Book) {b : Book} (h : y ≠ b.Id) :
    findLoop y (l ++ [b]) = findLoop y l := by
  have hb : ¬ b.Id = y := fun e => h e.symm
  induction l with
  | nil => simp [findLoop, hb]
  | cons bk rest ih =>
    by_cases hk : bk.Id = y
    · simp [findLoop, hk]
    · simp [findLoop, hk, ih]

theorem findLoop_set_of_ne {y : String} (l : List Book) (i : Nat) {b : Book}
    (hi : l[i]?.map Book.Id = some b.Id) (h : y ≠ b.Id) :
    findLoop y (l.set i b) = findLoop y l := by
  have hb : ¬ b.Id = y := fun e => h e.symm
  induction l generalizing i with
  | nil => simp
  | cons bk rest ih =>
    cases i with
    | zero =>
      simp at hi
      have hk : ¬ bk.Id = y := by rw [hi]; exact hb
      simp [findLoop, hk, hb]
    | succ i =>
      simp at hi
      by_cases hk : bk.Id = y
      · simp [findLoop, hk]
      · simp only [List.set_cons_succ, findLoop, hk, if_false]
        exact ih i (by simpa using hi)

theorem findLoop_eraseIdx_of_ne {y x : String} (l : List Book) (i : Nat)
    (hi : l[i]?.map Book.Id = some x) (h : y ≠ x) :
    findLoop y (l.eraseIdx i) = findLoop y l := by
  induction l generalizing i with
  | nil => simp
  | cons bk rest ih =>
    cases i with
    | zero =>
      simp at hi
      have hk : ¬ bk.Id = y := by rw [hi]; exact fun e => h e.symm
      simp [findLoop, hk]
    | succ i =>
      by_cases hk : bk.Id = y
      · simp [findLoop, hk]
      · simp only [List.eraseIdx_cons_succ, findLoop, hk, if_false]
        exact ih i (by simpa using hi)

theorem take_append_drop_succ (l : List Book) (i : Nat) :
    l.take i ++ l.drop (i + 1) = l.eraseIdx i := by
  rw [List.eraseIdx_eq_take_drop_succ]


theorem nodup_ids_set {l : List Book} {i : Nat} {b : Book}
    (hi : l[i]?.map Book.Id = some b.Id) : (l.set i b).map Book.Id = l.map Book.Id := by
  induction l generalizing i with
  | nil => simp
  | cons bk rest ih =>
    cases i with
    | zero => simp at hi; simp [hi]
    | succ i => simp at hi; simp [ih (by simpa using hi)]

theorem filter_eq_eraseIdx {x : String} {l : List Book} {i : Nat}
    (hn : (l.map Book.Id).Nodup) (hi : l[i]?.map Book.Id = some x) :
    l.filter (fun bk => decide (bk.Id ≠ x)) = l.eraseIdx i := by
  induction l generalizing i with
  | nil => simp
  | cons bk rest ih =>
    simp only [List.map_cons, List.nodup_cons] at hn
    cases i with
    | zero =>
      simp at hi
      subst hi
      have hall : ∀ a ∈ rest, decide (a.Id ≠ bk.Id) = true := by
        intro a ha
        have : a.Id ≠ bk.Id := fun e => hn.1 (e ▸ List.mem_map_of_mem Book.Id ha)
        simpa using this
      rw [List.filter_cons_of_neg (by simp), List.eraseIdx_cons_zero]
      exact List.filter_eq_self.mpr hall
    | succ i =>
      have hi2 : rest[i]?.map Book.Id = some x := by simpa using hi
      have hx : x ∈ rest.map Book.Id := by
        cases hr : rest[i]? with
        | none => simp [hr] at hi2
        | some c =>
          simp [hr] at hi2
          exact hi2 ▸ List.mem_map_of_mem Book.Id (List.getElem?_mem hr)
      have hk : bk.Id ≠ x := fun e => hn.1 (e ▸ hx)
      rw [List.filter_cons_of_pos (by simpa using hk), List.eraseIdx_cons_succ, ih hn.2 hi2]

theorem indexOfId_set {b : Book} {l : List Book} {i : Nat} (hc : indexOfId b.Id l = some i) :
    indexOfId b.Id (l.set i b) = some i := by
  induction l generalizing i with
  | nil => simp [indexOfId] at hc
  | cons bk rest ih =>
    by_cases hb : bk.Id = b.Id
    · simp [indexOfId, hb] at hc
      subst hc
      simp [indexOfId]
    · simp only [indexOfId, hb, if_false, Option.map_eq_some'] at hc
      obtain ⟨k, hk, rfl⟩ := hc
      simp [indexOfId, hb, ih hk]

/-! ## Lemmas on the store operations -/

theorem AddBook_of_not_mem {s : BookStore} {b : Book} (h : b.Id ∉ s.ids) :
    s.AddBook b = (⟨s.books ++ [b]⟩, none) := by
  unfold BookStore.AddBook
  rw [(indexOfId_eq_none_iff b.Id s.books).mpr h]

theorem AddBook_of_mem {s : BookStore} {b : Book} (h : b.Id ∈ s.ids) :
    s.AddBook b = (s, some ("Book with Id:" ++ b.Id ++ " is isset!")) := by
  have hs := (indexOfId_isSome_iff b.Id s.books).mpr h
  unfold BookStore.AddBook
  cases hc : indexOfId b.Id s.books with
  | none => simp [hc] at hs
  | some i => rfl

theorem UpdateBook_of_not_mem {s : BookStore} {b : Book} (h : b.Id ∉ s.ids) :
    s.UpdateBook b = (s, some ("Book with Id:" ++ b.Id ++ " not found!")) := by
  unfold BookStore.UpdateBook
  rw [(indexOfId_eq_none_iff b.Id s.books).mpr h]

theorem DeleteBook_of_not_mem {s : BookStore} {x : String} (h : x ∉ s.ids) :
    s.DeleteBook x = (s, some ("Book with Id:" ++ x ++ " not found!")) := by
  unfold BookStore.DeleteBook
  rw [(indexOfId_eq_none_iff x s.books).mpr h]

theorem UpdateBook_of_mem {s : BookStore} {b : Book} (h : b.Id ∈ s.ids) :
    ∃ i, indexOfId b.Id s.books = some i ∧ s.UpdateBook b = (⟨s.books.set i b⟩, none) := by
  have hs := (indexOfId_isSome_iff b.Id s.books).mpr h
  cases hc : indexOfId b.Id s.books with
  | none => simp [hc] at hs
  | some i =>
    refine ⟨i, rfl, ?_⟩
    unfold BookStore.UpdateBook
    rw [hc]

theorem DeleteBook_of_mem {s : BookStore} {x : String} (h : x ∈ s.ids) :
    ∃ i, indexOfId x s.books = some i ∧ s.DeleteBook x = (⟨s.books.eraseIdx i⟩, none) := by
  have hs := (indexOfId_isSome_iff x s.books).mpr h
  cases hc : indexOfId x s.books with
  | none => simp [hc] at hs
  | some i =>
    refine ⟨i, rfl, ?_⟩
    unfold BookStore.DeleteBook
    rw [hc]
    show (BookStore.mk (s.books.take i ++ s.books.drop (i + 1)), (none : Option String)) = _
    rw [take_append_drop_succ]

theorem indexOfId_append_singleton {id : String} {l : List Book} (h : id ∉ l.map Book.Id)
    (b : Book) : indexOfId id (l ++ [b]) = if b.Id = id then some l.length else none := by
  induction l with
  | nil => simp [indexOfId]
  | cons bk rest ih =>
    simp only [List.map_cons, List.mem_cons, not_or] at h
    have hb : ¬ bk.Id = id := fun e => h.1 e.symm
    have ih2 := ih h.2
    by_cases hbi : b.Id = id
    · simp [indexOfId, hb, hbi] at ih2 ⊢
      exact ih2
    · simp [indexOfId, hb, hbi] at ih2 ⊢
      exact ih2

theorem FindBookById_append_singleton {s : BookStore} {b : Book} (h : b.Id ∉ s.ids) :
    BookStore.FindBookById ⟨s.books ++ [b]⟩ b.Id = some b := by
  show findLoop b.Id (s.books ++ [b]) = some b
  rw [findLoop_append_of_not_mem h]
  simp [findLoop]

theorem UpdateBook_append_singleton {s : BookStore} {b c : Book} (h : b.Id ∉ s.ids)
    (hc : c.Id = b.Id) :
    BookStore.UpdateBook ⟨s.books ++ [b]⟩ c = (⟨s.books ++ [c]⟩, none) := by
  have hi : indexOfId c.Id (s.books ++ [b]) = some s.books.length := by
    rw [indexOfId_append_singleton (hc ▸ h), if_pos hc.symm]
  unfold BookStore.UpdateBook
  simp only [hi]
  simp

theorem DeleteBook_append_singleton {s : BookStore} {b : Book} (h : b.Id ∉ s.ids) :
    BookStore.DeleteBook ⟨s.books ++ [b]⟩ b.Id = (s, none) := by
  have hi : indexOfId b.Id (s.books ++ [b]) = some s.books.length := by
    rw [indexOfId_append_singleton h, if_pos rfl]
  unfold BookStore.DeleteBook
  simp only [hi]
  simp

/-! ## Store theorems -/

/-- C1. Id uniqueness is preserved by `AddBook`, `UpdateBook` and `DeleteBook`
(whether the call succeeds or fails), hence by every finite sequence of these
calls, and so holds in every store reachable from the initial empty store. -/
theorem uniqueIds_invariant (s : BookStore) (b : Book) (x : String) (ops : List StoreOp)
    (h : s.uniqueIds) :
    (s.AddBook b).1.uniqueIds ∧ (s.UpdateBook b).1.uniqueIds ∧ (s.DeleteBook x).1.uniqueIds ∧
      (runOps s ops).uniqueIds ∧ (runOps bookStore ops).uniqueIds := by
  have step : ∀ (t : BookStore) (c : Book) (y : String), t.uniqueIds →
      (t.AddBook c).1.uniqueIds ∧ (t.UpdateBook c).1.uniqueIds ∧ (t.DeleteBook y).1.uniqueIds := by
    intro t c y ht
    unfold BookStore.uniqueIds BookStore.ids at ht
    refine ⟨?_, ?_, ?_⟩
    · unfold BookStore.AddBook
      cases hc : indexOfId c.Id t.books with
      | some i => exact ht
      | none =>
        have hn := (indexOfId_eq_none_iff _ _).mp hc
        simp only [BookStore.uniqueIds, BookStore.ids, List.map_append, List.map_cons,
          List.map_nil]
        exact List.Nodup.append ht (List.nodup_singleton _) (by simpa using hn)
    · unfold BookStore.UpdateBook
      cases hc : indexOfId c.Id t.books with
      | none => exact ht
      | some i =>
        simp only [BookStore.uniqueIds, BookStore.ids]
        rw [nodup_ids_set (indexOfId_some hc).2.1]
        exact ht
    · unfold BookStore.DeleteBook
      cases hc : indexOfId y t.books with
      | none => exact ht
      | some i =>
        simp only [BookStore.uniqueIds, BookStore.ids, take_append_drop_succ]
        exact ht.sublist ((List.eraseIdx_sublist _ _).map _)
  have run : ∀ (ops : List StoreOp) (t : BookStore), t.uniqueIds → (runOps t ops).uniqueIds := by
    intro ops
    induction ops with
    | nil => intro t ht; exact ht
    | cons op rest ih =>
      intro t ht
      have : (StoreOp.apply t op).uniqueIds := by
        cases op with
        | add c => exact (step t c "" ht).1
        | update c => exact (step t c "" ht).2.1
        | delete y => exact (step t b y ht).2.2
      exact ih _ this
  have h0 : bookStore.uniqueIds := by simp [BookStore.uniqueIds, BookStore.ids, bookStore]
  exact ⟨(step s b x h).1, (step s b x h).2.1, (step s b x h).2.2, run ops s h, run ops _ h0⟩


/-- C2. When the id of `b` does not occur in the store, `AddBook b` returns no
error, the new sequence is the old one with `b` appended at the end, and
`FindBookById b.Id` on the new store returns `b`. -/
theorem AddBook_absent (s : BookStore) (b : Book) (h : b.Id ∉ s.ids) :
    (s.AddBook b).2 = none ∧ (s.AddBook b).1.books = s.books ++ [b] ∧
      (s.AddBook b).1.FindBookById b.Id = some b := by
  rw [AddBook_of_not_mem h]
  exact ⟨rfl, rfl, FindBookById_append_singleton h⟩

/-- C3. When the id of `b` already occurs in the store, `AddBook b` fails with
the text "Book with Id:<b.Id> is isset!" and leaves the sequence, and so its
length, unchanged; `AddBook` fails exactly when the id is present; and a second
`AddBook` with the same id always fails and leaves the store as the first call
left it. -/
theorem AddBook_present (s : BookStore) (b c : Book) :
    (b.Id ∈ s.ids →
      (s.AddBook b).2 = some ("Book with Id:" ++ b.Id ++ " is isset!") ∧
        (s.AddBook b).1 = s ∧ (s.AddBook b).1.books.length = s.books.length) ∧
    ((s.AddBook b).2 ≠ none ↔ b.Id ∈ s.ids) ∧
    (c.Id = b.Id →
      ((s.AddBook b).1.AddBook c).2 = some ("Book with Id:" ++ c.Id ++ " is isset!") ∧
        ((s.AddBook b).1.AddBook c).1 = (s.AddBook b).1 ∧
        ((s.AddBook b).1.AddBook c).1.books.length = (s.AddBook b).1.books.length) := by
  refine ⟨fun h => ?_, ?_, fun hcb => ?_⟩
  · rw [AddBook_of_mem h]
    exact ⟨rfl, rfl, rfl⟩
  · by_cases h : b.Id ∈ s.ids
    · simp [AddBook_of_mem h, h]
    · simp [AddBook_of_not_mem h, h]
  · have hmem : c.Id ∈ (s.AddBook b).1.ids := by
      rw [hcb]
      by_cases h : b.Id ∈ s.ids
      · rw [AddBook_of_mem h]; exact h
      · rw [AddBook_of_not_mem h]; simp [BookStore.ids]
    rw [AddBook_of_mem hmem]
    exact ⟨rfl, rfl, rfl⟩

/-- C4. In a store with pairwise distinct ids, `DeleteBook x` for a present id
`x` returns no error and removes exactly one entry, the one with id `x`: the
length drops by exactly one, entries before the removed position stay where they
are and later entries shift left by one (so the result is the old sequence
without the books of id `x`, in the old order), and `FindBookById x` on the
result misses. -/
theorem DeleteBook_present (s : BookStore) (x : String) (hu : s.uniqueIds) (hx : x ∈ s.ids) :
    (s.DeleteBook x).2 = none ∧
    (s.DeleteBook x).1.books.length + 1 = s.books.length ∧
    (∃ i, i < s.books.length ∧ s.books[i]?.map Book.Id = some x ∧
      (∀ j, j < i → (s.DeleteBook x).1.books[j]? = s.books[j]?) ∧
      (∀ j, i ≤ j → (s.DeleteBook x).1.books[j]? = s.books[j + 1]?)) ∧
    (s.DeleteBook x).1.books = s.books.filter (fun bk => decide (bk.Id ≠ x)) ∧
    (s.DeleteBook x).1.FindBookById x = none := by
  obtain ⟨i, hc, hdel⟩ := DeleteBook_of_mem hx
  obtain ⟨hlt, hid, -, -⟩ := indexOfId_some hc
  have hfil := filter_eq_eraseIdx hu hid
  rw [hdel]
  refine ⟨rfl, ?_, ⟨i, hlt, hid, ?_, ?_⟩, hfil.symm, ?_⟩
  · show (s.books.eraseIdx i).length + 1 = s.books.length
    rw [List.length_eraseIdx, if_pos hlt]; omega
  · intro j hj
    show (s.books.eraseIdx i)[j]? = s.books[j]?
    rw [List.getElem?_eraseIdx, if_pos hj]
  · intro j hj
    show (s.books.eraseIdx i)[j]? = s.books[j + 1]?
    rw [List.getElem?_eraseIdx, if_neg (by omega)]
  · show findLoop x (s.books.eraseIdx i) = none
    rw [findLoop_eq_none_iff, ← hfil]
    simp

/-- C5. When the id is absent, `UpdateBook` and `DeleteBook` fail with the text
"Book with Id:<id> not found!" naming that id and leave the store unchanged;
each of them fails exactly when the id is absent. -/
theorem UpdateBook_DeleteBook_absent (s : BookStore) (b : Book) (x : String) :
    (b.Id ∉ s.ids →
      s.UpdateBook b = (s, some ("Book with Id:" ++ b.Id ++ " not found!"))) ∧
    (x ∉ s.ids →
      s.DeleteBook x = (s, some ("Book with Id:" ++ x ++ " not found!"))) ∧
    ((s.UpdateBook b).2 ≠ none ↔ b.Id ∉ s.ids) ∧
    ((s.DeleteBook x).2 ≠ none ↔ x ∉ s.ids) := by
  refine ⟨UpdateBook_of_not_mem, DeleteBook_of_not_mem, ?_, ?_⟩
  · by_cases h : b.Id ∈ s.ids
    · obtain ⟨i, -, hu⟩ := UpdateBook_of_mem h
      simp [hu, h]
    · simp [UpdateBook_of_not_mem h, h]
  · by_cases h : x ∈ s.ids
    · obtain ⟨i, -, hd⟩ := DeleteBook_of_mem h
      simp [hd, h]
    · simp [DeleteBook_of_not_mem h, h]

/-- C6. When the id of `b` occurs in the store, `UpdateBook b` returns no error
and replaces in place: the length is unchanged, `b` sits at the position of the
first entry whose id is `b.Id`, every other position holds what it held before,
and `FindBookById b.Id` on the result returns `b`. -/
theorem UpdateBook_present (s : BookStore) (b : Book) (h : b.Id ∈ s.ids) :
    (s.UpdateBook b).2 = none ∧
    (s.UpdateBook b).1.books.length = s.books.length ∧
    (∃ i, i < s.books.length ∧ s.books[i]?.map Book.Id = some b.Id ∧
      (∀ j, j < i → s.books[j]?.map Book.Id ≠ some b.Id) ∧
      (s.UpdateBook b).1.books[i]? = some b ∧
      (∀ j, j ≠ i → (s.UpdateBook b).1.books[j]? = s.books[j]?)) ∧
    (s.UpdateBook b).1.FindBookById b.Id = some b := by
  obtain ⟨i, hc, hupd⟩ := UpdateBook_of_mem h
  obtain ⟨hlt, hid, hfirst, -⟩ := indexOfId_some hc
  have hat : (s.books.set i b)[i]? = some b := by
    rw [List.getElem?_set_self hlt]
  rw [hupd]
  refine ⟨rfl, List.length_set _ _ _, ⟨i, hlt, hid, hfirst, hat, ?_⟩, ?_⟩
  · intro j hj
    show (s.books.set i b)[j]? = s.books[j]?
    rw [List.getElem?_set_ne (Ne.symm hj)]
  · show findLoop b.Id (s.books.set i b) = some b
    rw [(indexOfId_some (indexOfId_set hc)).2.2.2, hat]

/-- C10. A call on one id does not change what `FindBookById` returns for any
other id: for `y` different from `b.Id` the lookup of `y` is the same before and
after `AddBook b` and before and after `UpdateBook b`, and for `y` different from
`x` it is the same before and after `DeleteBook x`, whether or not the call
succeeds. -/
theorem FindBookById_frame (s : BookStore) (b : Book) (x y : String) :
    (y ≠ b.Id → (s.AddBook b).1.FindBookById y = s.FindBookById y ∧
      (s.UpdateBook b).1.FindBookById y = s.FindBookById y) ∧
    (y ≠ x → (s.DeleteBook x).1.FindBookById y = s.FindBookById y) := by
  refine ⟨fun hy => ⟨?_, ?_⟩, fun hy => ?_⟩
  · unfold BookStore.AddBook BookStore.FindBookById
    cases hc : indexOfId b.Id s.books with
    | some i => rfl
    | none => exact findLoop_append_of_ne s.books hy
  · unfold BookStore.UpdateBook BookStore.FindBookById
    cases hc : indexOfId b.Id s.books with
    | none => rfl
    | some i => exact findLoop_set_of_ne s.books i (indexOfId_some hc).2.1 hy
  · unfold BookStore.DeleteBook BookStore.FindBookById
    cases hc : indexOfId x s.books with
    | none => rfl
    | some i =>
      show findLoop y (s.books.take i ++ s.books.drop (i + 1)) = findLoop y s.books
      rw [take_append_drop_succ]
      exact findLoop_eraseIdx_of_ne s.books i (indexOfId_some hc).2.1 hy

/-! ## Handler lemmas -/

theorem isPrefixOf_append_self (l r : List Char) : l.isPrefixOf (l ++ r) = true := by
  induction l with
  | nil => simp [List.isPrefixOf]
  | cons c cs ih => simp [List.isPrefixOf, ih]

theorem replaceOnce_head (old new rest : List Char) (h : old ≠ []) :
    replaceOnce old new (old ++ rest) = new ++ rest := by
  cases old with
  | nil => exact absurd rfl h
  | cons c cs =>
    have hp : (c :: cs).isPrefixOf (c :: (cs ++ rest)) = true :=
      isPrefixOf_append_self (c :: cs) rest
    have hd : (c :: (cs ++ rest)).drop (c :: cs).length = rest := by
      simp
    show replaceOnce (c :: cs) new (c :: (cs ++ rest)) = new ++ rest
    rw [replaceOnce, if_pos hp, hd]

/-- Trimming the route prefix from `/book/<id>` leaves `<id>`. -/
theorem stringsReplace1_book (id : String) : stringsReplace1 ("/book/" ++ id) "/book/" "" = id := by
  unfold stringsReplace1
  rw [String.data_append, replaceOnce_head _ _ _ (by decide)]
  rfl

theorem serve_get (s : BookStore) (id : String) (d : Except String Book) :
    serve handlerBook s ⟨MethodGet, "/book/" ++ id, d⟩ =
      (s, match s.FindBookById id with
          | none => ⟨404, [⟨Payload.null, "Book with Id:" ++ id ++ " not found!"⟩]⟩
          | some bk => ⟨200, [⟨Payload.book bk, ""⟩]⟩) := by
  simp only [serve, handlerBook, handleGetBook, if_true, stringsReplace1_book]
  cases s.FindBookById id <;> rfl

theorem serve_decode_error (s : BookStore) (m p e : String)
    (hm : m ∈ [MethodPost, MethodPut, MethodDelete]) :
    serve handlerBook s ⟨m, p, Except.error e⟩ = (s, ⟨400, [⟨Payload.null, e⟩]⟩) := by
  simp only [List.mem_cons, List.mem_singleton, List.not_mem_nil, or_false] at hm
  rcases hm with rfl | rfl | rfl <;> rfl

theorem serve_post (s : BookStore) (p : String) (b : Book) :
    serve handlerBook s ⟨MethodPost, p, Except.ok b⟩ =
      ((s.AddBook b).1, match (s.AddBook b).2 with
          | some err => ⟨409, [⟨Payload.null, err⟩]⟩
          | none => ⟨200, [⟨Payload.text ("Book with id:" ++ b.Id ++ " updated is SUCCESS!"), ""⟩]⟩) := by
  have hm : ¬ MethodPost = MethodGet := by decide
  simp only [serve, handlerBook, handleAddBook, hm, if_false, if_true]
  rcases s.AddBook b with ⟨s1, _ | err⟩ <;> rfl

theorem serve_put (s : BookStore) (p : String) (b : Book) :
    serve handlerBook s ⟨MethodPut, p, Except.ok b⟩ =
      ((s.UpdateBook b).1, match (s.UpdateBook b).2 with
          | some err => ⟨400, [⟨Payload.null, err⟩]⟩
          | none => ⟨200, [⟨Payload.text ("Book with id:" ++ b.Id ++ " updated is SUCCESS!"), ""⟩]⟩) := by
  have h1 : ¬ MethodPut = MethodGet := by decide
  have h2 : ¬ MethodPut = MethodPost := by decide
  simp only [serve, handlerBook, handleUpdateBook, h1, h2, if_false, if_true]
  rcases s.UpdateBook b with ⟨s1, _ | err⟩ <;> rfl

theorem serve_delete (s : BookStore) (p : String) (b : Book) :
    serve handlerBook s ⟨MethodDelete, p, Except.ok b⟩ =
      ((s.DeleteBook b.Id).1, match (s.DeleteBook b.Id).2 with
          | some err => ⟨400, [⟨Payload.null, err⟩]⟩
          | none => ⟨200, [⟨Payload.text ("Book with id:" ++ b.Id ++ " deleted is SUCCESS!"), ""⟩]⟩) := by
  have h1 : ¬ MethodDelete = MethodGet := by decide
  have h2 : ¬ MethodDelete = MethodPost := by decide
  have h3 : ¬ MethodDelete = MethodPut := by decide
  simp only [serve, handlerBook, handleDeleteBook, h1, h2, h3, if_false, if_true]
  rcases s.DeleteBook b.Id with ⟨s1, _ | err⟩ <;> rfl


theorem findLoop_id {id : String} {l : List Book} {bk : Book} (h : findLoop id l = some bk) :
    bk.Id = id ∧ bk ∈ l := by
  induction l with
  | nil => simp [findLoop] at h
  | cons c rest ih =>
    by_cases hc : c.Id = id
    · simp [findLoop, hc] at h
      subst h
      exact ⟨hc, List.mem_cons_self _ _⟩
    · simp only [findLoop, hc, if_false] at h
      exact ⟨(ih h).1, List.mem_cons_of_mem _ (ih h).2⟩

/-! ## Handler theorems -/

/-- C8. The `/book/` handler follows the error taxonomy, for every store and
every outcome of decoding the body.  A body that fails to decode gives 400 with
the decode error and the store unchanged (POST, PUT, DELETE); POST of a present
id gives 409 "Book with Id:<id> is isset!"; PUT or DELETE of an absent id gives
400 "Book with Id:<id> not found!"; GET `/book/<id>` of an absent id gives 404
"Book with Id:<id> not found!"; every other case gives 200 with an empty error
and the found book (GET) or a confirmation string (POST, PUT, DELETE). -/
theorem handlerBook_taxonomy (s : BookStore) (id p e : String) (b : Book)
    (d : Except String Book) :
    (∀ m, m ∈ [MethodPost, MethodPut, MethodDelete] →
      serve handlerBook s ⟨m, p, Except.error e⟩ = (s, ⟨400, [⟨Payload.null, e⟩]⟩)) ∧
    (b.Id ∈ s.ids →
      serve handlerBook s ⟨MethodPost, p, Except.ok b⟩ =
        (s, ⟨409, [⟨Payload.null, "Book with Id:" ++ b.Id ++ " is isset!"⟩]⟩)) ∧
    (b.Id ∉ s.ids →
      serve handlerBook s ⟨MethodPut, p, Except.ok b⟩ =
        (s, ⟨400, [⟨Payload.null, "Book with Id:" ++ b.Id ++ " not found!"⟩]⟩) ∧
      serve handlerBook s ⟨MethodDelete, p, Except.ok b⟩ =
        (s, ⟨400, [⟨Payload.null, "Book with Id:" ++ b.Id ++ " not found!"⟩]⟩)) ∧
    (id ∉ s.ids →
      serve handlerBook s ⟨MethodGet, "/book/" ++ id, d⟩ =
        (s, ⟨404, [⟨Payload.null, "Book with Id:" ++ id ++ " not found!"⟩]⟩)) ∧
    (id ∈ s.ids →
      ∃ bk, s.FindBookById id = some bk ∧ bk.Id = id ∧ bk ∈ s.books ∧
        serve handlerBook s ⟨MethodGet, "/book/" ++ id, d⟩ =
          (s, ⟨200, [⟨Payload.book bk, ""⟩]⟩)) ∧
    (b.Id ∉ s.ids →
      serve handlerBook s ⟨MethodPost, p, Except.ok b⟩ =
        (⟨s.books ++ [b]⟩,
          ⟨200, [⟨Payload.text ("Book with id:" ++ b.Id ++ " updated is SUCCESS!"), ""⟩]⟩)) ∧
    (b.Id ∈ s.ids →
      serve handlerBook s ⟨MethodPut, p, Except.ok b⟩ =
        ((s.UpdateBook b).1,
          ⟨200, [⟨Payload.text ("Book with id:" ++ b.Id ++ " updated is SUCCESS!"), ""⟩]⟩) ∧
      serve handlerBook s ⟨MethodDelete, p, Except.ok b⟩ =
        ((s.DeleteBook b.Id).1,
          ⟨200, [⟨Payload.text ("Book with id:" ++ b.Id ++ " deleted is SUCCESS!"), ""⟩]⟩)) := by
  refine ⟨fun m hm => serve_decode_error s m p e hm, ?_, ?_, ?_, ?_, ?_, ?_⟩
  · intro h
    rw [serve_post, AddBook_of_mem h]
  · intro h
    rw [serve_put, serve_delete, UpdateBook_of_not_mem h, DeleteBook_of_not_mem h]
    exact ⟨rfl, rfl⟩
  · intro h
    have hf : s.FindBookById id = none := (findLoop_eq_none_iff id s.books).mpr h
    rw [serve_get, hf]
  · intro h
    cases hf : s.FindBookById id with
    | none => exact absurd ((findLoop_eq_none_iff id s.books).mp hf) (not_not.mpr h)
    | some bk =>
      refine ⟨bk, rfl, (findLoop_id hf).1, (findLoop_id hf).2, ?_⟩
      rw [serve_get, hf]
  · intro h
    rw [serve_post, AddBook_of_not_mem h]
  · intro h
    obtain ⟨i, -, hu⟩ := UpdateBook_of_mem h
    obtain ⟨k, -, hd⟩ := DeleteBook_of_mem h
    rw [serve_put, serve_delete, hu, hd]
    exact ⟨rfl, rfl⟩

/-- C9. End to end through the `/book/` handler: on a store that does not hold
id `i`, for books `b`, `c` that both have id `i` and a DELETE body of id `i`, the
requests POST `b`, GET `/book/i`, PUT `c`, GET `/book/i`, DELETE, GET `/book/i`
answer in order 200; 200 with `b`; 200; 200 with `c`; 200; 404. -/
theorem handlerBook_end_to_end (s : BookStore) (i p : String) (b c k : Book)
    (d : Except String Book) (hi : i ∉ s.ids) (hb : b.Id = i) (hc : c.Id = i) (hk : k.Id = i) :
    serveAll handlerBook s
      [⟨MethodPost, p, Except.ok b⟩, ⟨MethodGet, "/book/" ++ i, d⟩,
       ⟨MethodPut, p, Except.ok c⟩, ⟨MethodGet, "/book/" ++ i, d⟩,
       ⟨MethodDelete, p, Except.ok k⟩, ⟨MethodGet, "/book/" ++ i, d⟩] =
      (s,
       [⟨200, [⟨Payload.text ("Book with id:" ++ i ++ " updated is SUCCESS!"), ""⟩]⟩,
        ⟨200, [⟨Payload.book b, ""⟩]⟩,
        ⟨200, [⟨Payload.text ("Book with id:" ++ i ++ " updated is SUCCESS!"), ""⟩]⟩,
        ⟨200, [⟨Payload.book c, ""⟩]⟩,
        ⟨200, [⟨Payload.text ("Book with id:" ++ i ++ " deleted is SUCCESS!"), ""⟩]⟩,
        ⟨404, [⟨Payload.null, "Book with Id:" ++ i ++ " not found!"⟩]⟩]) := by
  subst hb
  have hcs : c.Id ∉ s.ids := hc ▸ hi
  have hf : s.FindBookById b.Id = none := (findLoop_eq_none_iff b.Id s.books).mpr hi
  have hdel : BookStore.DeleteBook ⟨s.books ++ [c]⟩ b.Id = (s, none) := by
    rw [← hc]; exact DeleteBook_append_singleton hcs
  have hfc : BookStore.FindBookById ⟨s.books ++ [c]⟩ b.Id = some c := by
    rw [← hc]; exact FindBookById_append_singleton hcs
  simp only [serveAll, serve_post, serve_get, serve_put, serve_delete, AddBook_of_not_mem hi,
    FindBookById_append_singleton hi, UpdateBook_append_singleton hi hc, hk, hdel, hfc, hf]
  rw [hc]

/-- The `/books/` handler under a method other than GET: status 200 and a single
document, the envelope listing the store. -/
theorem serve_books_other (s : BookStore) (m p : String) (d : Except String Book)
    (hm : m ≠ MethodGet) :
    serve handlerBooks s ⟨m, p, d⟩ = (s, ⟨200, [⟨Payload.list s.books, ""⟩]⟩) := by
  simp only [serve, handlerBooks, hm, if_false]
  rfl

/-- The `/books/` handler under GET: status 200, and the body holds the document
written by `handleGetBook` followed by the envelope listing the store. -/
theorem serve_books_get (s : BookStore) (p : String) (d : Except String Book) :
    serve handlerBooks s ⟨MethodGet, p, d⟩ =
      (s, ⟨200,
        [match s.FindBookById (stringsReplace1 p "/book/" "") with
          | none =>
            ⟨Payload.null, "Book with Id:" ++ stringsReplace1 p "/book/" "" ++ " not found!"⟩
          | some bk => ⟨Payload.book bk, ""⟩,
         ⟨Payload.list s.books, ""⟩]⟩) := by
  simp only [serve, handlerBooks, handleGetBook, if_true]
  cases s.FindBookById (stringsReplace1 p "/book/" "") <;> rfl

/-- C7, evaluated at GET `/books/` after adding two books with distinct ids to
the initial store: the status is 200, but the body holds two documents, first
the not-found envelope written by `handleGetBook` and then the envelope listing
the two books in insertion order. -/
theorem handlerBooks_get_two_documents :
    serve handlerBooks (runOps bookStore [StoreOp.add dune, StoreOp.add emma])
        ⟨MethodGet, "/books/", Except.error "EOF"⟩ =
      (⟨[dune, emma]⟩,
        ⟨200, [⟨Payload.null, "Book with Id:/books/ not found!"⟩,
               ⟨Payload.list [dune, emma], ""⟩]⟩) := by
  decide

/-! ## Instances at concrete inputs -/

/-- Instance of the invariant on a two-book store. -/
theorem uniqueIds_invariant_witness :
    shelf.uniqueIds ∧
      ((shelf.AddBook ulysses).1.uniqueIds ∧ (shelf.UpdateBook duneRevised).1.uniqueIds ∧
        (shelf.DeleteBook "2").1.uniqueIds ∧
        (runOps shelf [StoreOp.add dune, StoreOp.delete "1", StoreOp.update emma]).uniqueIds ∧
        (runOps bookStore [StoreOp.add dune, StoreOp.delete "1", StoreOp.update emma]).uniqueIds) :=
  ⟨by decide, uniqueIds_invariant shelf ulysses "2"
    [StoreOp.add dune, StoreOp.delete "1", StoreOp.update emma] (by decide)⟩

/-- Instance: adding a third book to a two-book store. -/
theorem AddBook_absent_witness :
    ulysses.Id ∉ shelf.ids ∧
      ((shelf.AddBook ulysses).2 = none ∧ (shelf.AddBook ulysses).1.books = shelf.books ++ [ulysses] ∧
        (shelf.AddBook ulysses).1.FindBookById ulysses.Id = some ulysses) :=
  ⟨by decide, AddBook_absent shelf ulysses (by decide)⟩

/-- Instance: adding a book whose id is taken, and adding the same book twice. -/
theorem AddBook_present_witness :
    duneRevised.Id ∈ shelf.ids ∧
      ((shelf.AddBook duneRevised).2 = some ("Book with Id:" ++ duneRevised.Id ++ " is isset!") ∧
        (shelf.AddBook duneRevised).1 = shelf ∧
        (shelf.AddBook duneRevised).1.books.length = shelf.books.length) ∧
      (((shelf.AddBook ulysses).1.AddBook ulysses).2 =
          some ("Book with Id:" ++ ulysses.Id ++ " is isset!") ∧
        ((shelf.AddBook ulysses).1.AddBook ulysses).1 = (shelf.AddBook ulysses).1 ∧
        ((shelf.AddBook ulysses).1.AddBook ulysses).1.books.length =
          (shelf.AddBook ulysses).1.books.length) :=
  ⟨by decide, (AddBook_present shelf duneRevised dune).1 (by decide),
    (AddBook_present shelf ulysses ulysses).2.2 rfl⟩

/-- Instance: deleting the first of two books. -/
theorem DeleteBook_present_witness :
    shelf.uniqueIds ∧ "1" ∈ shelf.ids ∧
      (shelf.DeleteBook "1").2 = none ∧
      (shelf.DeleteBook "1").1.books.length + 1 = shelf.books.length ∧
      (shelf.DeleteBook "1").1.books = shelf.books.filter (fun bk => decide (bk.Id ≠ "1")) ∧
      (shelf.DeleteBook "1").1.FindBookById "1" = none :=
  have h := DeleteBook_present shelf "1" (by decide) (by decide)
  ⟨by decide, by decide, h.1, h.2.1, h.2.2.2.1, h.2.2.2.2⟩

/-- Instance: updating and deleting an id the store does not hold. -/
theorem UpdateBook_DeleteBook_absent_witness :
    ulysses.Id ∉ shelf.ids ∧
      shelf.UpdateBook ulysses = (shelf, some ("Book with Id:" ++ ulysses.Id ++ " not found!")) ∧
      shelf.DeleteBook "3" = (shelf, some ("Book with Id:" ++ "3" ++ " not found!")) :=
  have h := UpdateBook_DeleteBook_absent shelf ulysses "3"
  ⟨by decide, h.1 (by decide), h.2.1 (by decide)⟩

/-- Instance: updating the first of two books. -/
theorem UpdateBook_present_witness :
    duneRevised.Id ∈ shelf.ids ∧
      (shelf.UpdateBook duneRevised).2 = none ∧
      (shelf.UpdateBook duneRevised).1.books.length = shelf.books.length ∧
      (shelf.UpdateBook duneRevised).1.FindBookById duneRevised.Id = some duneRevised :=
  have h := UpdateBook_present shelf duneRevised (by decide)
  ⟨by decide, h.1, h.2.1, h.2.2.2⟩

/-- Instance: the lookup of id 2 under calls on id 1. -/
theorem FindBookById_frame_witness :
    "2" ≠ duneRevised.Id ∧ "2" ≠ "1" ∧
      ((shelf.AddBook duneRevised).1.FindBookById "2" = shelf.FindBookById "2" ∧
        (shelf.UpdateBook duneRevised).1.FindBookById "2" = shelf.FindBookById "2") ∧
      (shelf.DeleteBook "1").1.FindBookById "2" = shelf.FindBookById "2" :=
  have h := FindBookById_frame shelf duneRevised "1" "2"
  ⟨by decide, by decide, h.1 (by decide), h.2 (by decide)⟩

/-- Instances of every row of the taxonomy on a two-book store. -/
theorem handlerBook_taxonomy_witness :
    serve handlerBook shelf ⟨MethodPut, "/book/", Except.error "EOF"⟩ =
        (shelf, ⟨400, [⟨Payload.null, "EOF"⟩]⟩) ∧
      serve handlerBook shelf ⟨MethodPost, "/book/", Except.ok duneRevised⟩ =
        (shelf, ⟨409, [⟨Payload.null, "Book with Id:" ++ duneRevised.Id ++ " is isset!"⟩]⟩) ∧
      (serve handlerBook shelf ⟨MethodPut, "/book/", Except.ok ulysses⟩ =
          (shelf, ⟨400, [⟨Payload.null, "Book with Id:" ++ ulysses.Id ++ " not found!"⟩]⟩) ∧
        serve handlerBook shelf ⟨MethodDelete, "/book/", Except.ok ulysses⟩ =
          (shelf, ⟨400, [⟨Payload.null, "Book with Id:" ++ ulysses.Id ++ " not found!"⟩]⟩)) ∧
      serve handlerBook shelf ⟨MethodGet, "/book/" ++ "3", Except.error "EOF"⟩ =
        (shelf, ⟨404, [⟨Payload.null, "Book with Id:" ++ "3" ++ " not found!"⟩]⟩) ∧
      (∃ bk, shelf.FindBookById "2" = some bk ∧ bk.Id = "2" ∧ bk ∈ shelf.books ∧
        serve handlerBook shelf ⟨MethodGet, "/book/" ++ "2", Except.error "EOF"⟩ =
          (shelf, ⟨200, [⟨Payload.book bk, ""⟩]⟩)) ∧
      serve handlerBook shelf ⟨MethodPost, "/book/", Except.ok ulysses⟩ =
        (⟨shelf.books ++ [ulysses]⟩,
          ⟨200, [⟨Payload.text ("Book with id:" ++ ulysses.Id ++ " updated is SUCCESS!"), ""⟩]⟩) ∧
      (serve handlerBook shelf ⟨MethodPut, "/book/", Except.ok duneRevised⟩ =
          ((shelf.UpdateBook duneRevised).1,
            ⟨200, [⟨Payload.text ("Book with id:" ++ duneRevised.Id ++ " updated is SUCCESS!"),
              ""⟩]⟩) ∧
        serve handlerBook shelf ⟨MethodDelete, "/book/", Except.ok duneRevised⟩ =
          ((shelf.DeleteBook duneRevised.Id).1,
            ⟨200, [⟨Payload.text ("Book with id:" ++ duneRevised.Id ++ " deleted is SUCCESS!"),
              ""⟩]⟩)) :=
  have hp := handlerBook_taxonomy shelf "2" "/book/" "EOF" duneRevised (Except.error "EOF")
  have ha := handlerBook_taxonomy shelf "3" "/book/" "EOF" ulysses (Except.error "EOF")
  ⟨hp.1 MethodPut (by decide), hp.2.1 (by decide), ha.2.2.1 (by decide),
    ha.2.2.2.1 (by decide), hp.2.2.2.2.1 (by decide), ha.2.2.2.2.2.1 (by decide),
    hp.2.2.2.2.2.2 (by decide)⟩

/-- Instance: the Dune scenario on the initial store. -/
theorem handlerBook_end_to_end_witness :
    "1" ∉ bookStore.ids ∧
      serveAll handlerBook bookStore
        [⟨MethodPost, "/book/", Except.ok dune⟩, ⟨MethodGet, "/book/" ++ "1", Except.error "EOF"⟩,
         ⟨MethodPut, "/book/", Except.ok duneRevised⟩,
         ⟨MethodGet, "/book/" ++ "1", Except.error "EOF"⟩,
         ⟨MethodDelete, "/book/", Except.ok ⟨"1", "", ""⟩⟩,
         ⟨MethodGet, "/book/" ++ "1", Except.error "EOF"⟩] =
      (bookStore,
       [⟨200, [⟨Payload.text ("Book with id:" ++ "1" ++ " updated is SUCCESS!"), ""⟩]⟩,
        ⟨200, [⟨Payload.book dune, ""⟩]⟩,
        ⟨200, [⟨Payload.text ("Book with id:" ++ "1" ++ " updated is SUCCESS!"), ""⟩]⟩,
        ⟨200, [⟨Payload.book duneRevised, ""⟩]⟩,
        ⟨200, [⟨Payload.text ("Book with id:" ++ "1" ++ " deleted is SUCCESS!"), ""⟩]⟩,
        ⟨404, [⟨Payload.null, "Book with Id:" ++ "1" ++ " not found!"⟩]⟩]) :=
  ⟨by decide, handlerBook_end_to_end bookStore "1" "/book/" dune duneRevised ⟨"1", "", ""⟩
    (Except.error "EOF") (by decide) rfl rfl rfl⟩

end RestServer
